import Mathlib

/-!
Verification of the DevPilot orchestration core (agents, registry, message
bus, priority task queue with dependency tracking, workflow engine).

Python dictionaries are modelled as association lists without duplicate
keys (`alookup` / `ainsert` / `aerase` give `dict` read, assignment and
`del` semantics); Python `datetime` values are abstracted to natural
numbers, with the `isoformat`/`fromisoformat` codec modelled as the
identity embedding `DVal.vtime`; Python `float` arithmetic in agent
scoring is modelled over `ℚ`.
-/

namespace DevPilot

/-! ## Definitions -/

/-- Python `dict` read: `m.get(k)` / `m[k]` on an association list. -/
def alookup {α : Type} : List (String × α) → String → Option α
  | [], _ => none
  | (k, v) :: l, key => if k = key then some v else alookup l key

/-- Python `dict` write: `m[k] = v` (overwrite in place, else append). -/
def ainsert {α : Type} : List (String × α) → String → α → List (String × α)
  | [], k, v => [(k, v)]
  | (k', v') :: l, k, v => if k' = k then (k, v) :: l else (k', v') :: ainsert l k v

/-- Python `del m[k]` (removes the binding for `k` when present). -/
def aerase {α : Type} : List (String × α) → String → List (String × α)
  | [], _ => []
  | (k', v') :: l, k => if k' = k then l else (k', v') :: aerase l k

/-- Python `m.update(other)`: apply each binding of `other` in order. -/
def aupdateAll {α : Type} (m : List (String × α)) (other : List (String × α)) :
    List (String × α) :=
  other.foldl (fun acc kv => ainsert acc kv.1 kv.2) m

/-- Replace the value bound to `k` when the key is present; leave the map
unchanged otherwise.  Used to model mutation of an object that a Python
dict holds by reference. -/
def aupdate {α : Type} : List (String × α) → String → α → List (String × α)
  | [], _, _ => []
  | (k', v') :: l, k, v => if k' = k then (k, v) :: l else (k', v') :: aupdate l k v

/-- Model of a Python value stored in an untyped `dict` (`Any`).
`vtime t` stands for the ISO-format string `datetime.isoformat` of the
abstract time `t`; `datetime.fromisoformat` inverts it. -/
inductive DVal : Type where
  | vstr (s : String)
  | vint (n : Nat)
  | vbool (b : Bool)
  | vnull
  | vtime (t : Nat)
  | vdict (m : List (String × DVal))
  | vlist (l : List DVal)

/-- `agent_message.MessageType`. -/
inductive MessageType : Type where
  | request | response | notify | delegate | error | status | handoff | broadcast
deriving DecidableEq

/-- `MessageType.value` (the enum's string value). -/
def MessageType.value : MessageType → String
  | .request => "request"
  | .response => "response"
  | .notify => "notify"
  | .delegate => "delegate"
  | .error => "error"
  | .status => "status"
  | .handoff => "handoff"
  | .broadcast => "broadcast"

/-- The enum constructor `MessageType(value)`; `none` models `ValueError`. -/
def MessageType.ofValue : String → Option MessageType
  | "request" => some .request
  | "response" => some .response
  | "notify" => some .notify
  | "delegate" => some .delegate
  | "error" => some .error
  | "status" => some .status
  | "handoff" => some .handoff
  | "broadcast" => some .broadcast
  | _ => none

/-- `agent_message.MessagePriority` (CRITICAL=1 … BACKGROUND=5). -/
inductive MessagePriority : Type where
  | critical | high | normal | low | background
deriving DecidableEq

/-- `MessagePriority.value` (the enum's integer value). -/
def MessagePriority.value : MessagePriority → Nat
  | .critical => 1
  | .high => 2
  | .normal => 3
  | .low => 4
  | .background => 5

/-- The enum constructor `MessagePriority(value)`; `none` models `ValueError`. -/
def MessagePriority.ofValue : Nat → Option MessagePriority
  | 1 => some .critical
  | 2 => some .high
  | 3 => some .normal
  | 4 => some .low
  | 5 => some .background
  | _ => none

/-- `agent_message.AgentMessage`: the inter-agent message envelope.
`timestamp` is an abstract `datetime` (a natural number). -/
structure AgentMessage : Type where
  sender : String
  recipient : String
  message_type : MessageType
  payload : List (String × DVal)
  priority : MessagePriority
  context : List (String × DVal)
  correlation_id : String
  parent_id : Option String
  timestamp : Nat
  metadata : List (String × DVal)

/-- `AgentMessage.to_dict`. -/
def AgentMessage.to_dict (m : AgentMessage) : List (String × DVal) :=
  [("sender", .vstr m.sender),
   ("recipient", .vstr m.recipient),
   ("message_type", .vstr m.message_type.value),
   ("payload", .vdict m.payload),
   ("priority", .vint m.priority.value),
   ("context", .vdict m.context),
   ("correlation_id", .vstr m.correlation_id),
   ("parent_id", match m.parent_id with | some p => .vstr p | none => .vnull),
   ("timestamp", .vtime m.timestamp),
   ("metadata", .vdict m.metadata)]

/-- `AgentMessage.from_dict`.  `freshCid` stands for the fresh
`str(uuid.uuid4())` used when `correlation_id` is absent, and `nowTime`
for `datetime.utcnow()` used when `timestamp` is absent; `none` models a
`KeyError`/`ValueError` (missing required key or ill-typed field). -/
def AgentMessage.from_dict (freshCid : String) (nowTime : Nat) (data : List (String × DVal)) :
    Option AgentMessage := do
  let sender ← match alookup data "sender" with | some (.vstr s) => some s | _ => none
  let recipient ← match alookup data "recipient" with | some (.vstr s) => some s | _ => none
  let mt ← match alookup data "message_type" with
    | some (.vstr s) => MessageType.ofValue s | _ => none
  let payload ← match alookup data "payload" with | some (.vdict d) => some d | _ => none
  let priority ← match alookup data "priority" with
    | some (.vint n) => MessagePriority.ofValue n
    | none => MessagePriority.ofValue 3
    | _ => none
  let ctx ← match alookup data "context" with
    | some (.vdict d) => some d | none => some [] | _ => none
  let cid ← match alookup data "correlation_id" with
    | some (.vstr s) => some s | none => some freshCid | _ => none
  let pid ← match alookup data "parent_id" with
    | some (.vstr s) => some (some s) | some .vnull => some none
    | none => some none | _ => none
  let ts ← match alookup data "timestamp" with
    | some (.vtime t) => some t | none => some nowTime | _ => none
  let md ← match alookup data "metadata" with
    | some (.vdict d) => some d | none => some [] | _ => none
  some { sender := sender, recipient := recipient, message_type := mt,
         payload := payload, priority := priority, context := ctx,
         correlation_id := cid, parent_id := pid, timestamp := ts, metadata := md }

/-- `AgentMessage.create_response`: builds a new response message; the
original message is not touched. -/
def AgentMessage.create_response (m : AgentMessage) (sender : String) (payload : List (String × DVal))
    (message_type : MessageType := .response) : AgentMessage :=
  { sender := sender
    recipient := m.sender
    message_type := message_type
    payload := payload
    priority := m.priority
    context := m.context
    correlation_id := m.correlation_id
    parent_id := some m.correlation_id
    timestamp := m.timestamp
    metadata := [("in_response_to", .vstr m.correlation_id)] }

/-- `agent_message.AgentTask`: a unit of work.  Timestamps are abstract
`datetime` values (natural numbers). -/
structure AgentTask : Type where
  task_id : String
  task_type : String
  input_data : List (String × DVal)
  assigned_agent : Option String
  status : String
  result : Option (List (String × DVal))
  created_at : Nat
  started_at : Option Nat
  completed_at : Option Nat
  parent_task_id : Option String
  dependencies : List String
  priority : MessagePriority
  metadata : List (String × DVal)

/-- `AgentTask.to_dict`. -/
def AgentTask.to_dict (t : AgentTask) : List (String × DVal) :=
  [("task_id", .vstr t.task_id),
   ("task_type", .vstr t.task_type),
   ("input_data", .vdict t.input_data),
   ("assigned_agent", match t.assigned_agent with | some a => .vstr a | none => .vnull),
   ("status", .vstr t.status),
   ("result", match t.result with | some r => .vdict r | none => .vnull),
   ("created_at", .vtime t.created_at),
   ("started_at", match t.started_at with | some s => .vtime s | none => .vnull),
   ("completed_at", match t.completed_at with | some c => .vtime c | none => .vnull),
   ("parent_task_id", match t.parent_task_id with | some p => .vstr p | none => .vnull),
   ("dependencies", .vlist (t.dependencies.map .vstr)),
   ("priority", .vint t.priority.value),
   ("metadata", .vdict t.metadata)]

/-- Reads back a list of task-id strings (the typed view of the
`dependencies` list assigned verbatim by `from_dict`). -/
def AgentTask.strListOf : List DVal → Option (List String)
  | [] => some []
  | .vstr s :: l => (strListOf l).map (s :: ·)
  | _ => none

/-- `AgentTask.from_dict`.  `nowTime` stands for the `datetime.utcnow()`
default used when `created_at` is absent; `none` models a
`KeyError`/`ValueError`. -/
def AgentTask.from_dict (nowTime : Nat) (data : List (String × DVal)) : Option AgentTask := do
  let tid ← match alookup data "task_id" with | some (.vstr s) => some s | _ => none
  let tty ← match alookup data "task_type" with | some (.vstr s) => some s | _ => none
  let inp ← match alookup data "input_data" with | some (.vdict d) => some d | _ => none
  let asg ← match alookup data "assigned_agent" with
    | some (.vstr s) => some (some s) | some .vnull => some none
    | none => some none | _ => none
  let st ← match alookup data "status" with
    | some (.vstr s) => some s | none => some "pending" | _ => none
  let res ← match alookup data "result" with
    | some (.vdict d) => some (some d) | some .vnull => some none
    | none => some none | _ => none
  let cre ← match alookup data "created_at" with
    | some (.vtime t) => some t | none => some nowTime | _ => none
  let sta ← match alookup data "started_at" with
    | some (.vtime t) => some (some t) | some .vnull => some none
    | none => some none | _ => none
  let com ← match alookup data "completed_at" with
    | some (.vtime t) => some (some t) | some .vnull => some none
    | none => some none | _ => none
  let par ← match alookup data "parent_task_id" with
    | some (.vstr s) => some (some s) | some .vnull => some none
    | none => some none | _ => none
  let deps ← match alookup data "dependencies" with
    | some (.vlist l) => strListOf l | none => some [] | _ => none
  let pri ← match alookup data "priority" with
    | some (.vint n) => MessagePriority.ofValue n
    | none => MessagePriority.ofValue 3 | _ => none
  let md ← match alookup data "metadata" with
    | some (.vdict d) => some d | none => some [] | _ => none
  some { task_id := tid, task_type := tty, input_data := inp, assigned_agent := asg,
         status := st, result := res, created_at := cre, started_at := sta,
         completed_at := com, parent_task_id := par, dependencies := deps,
         priority := pri, metadata := md }

/-- `AgentTask.mark_started` (`now` models `datetime.utcnow()`). -/
def AgentTask.mark_started (t : AgentTask) (now : Nat) : AgentTask :=
  { t with status := "running", started_at := some now }

/-- `AgentTask.mark_completed`. -/
def AgentTask.mark_completed (t : AgentTask) (result : List (String × DVal)) (now : Nat) : AgentTask :=
  { t with status := "completed", result := some result, completed_at := some now }

/-- `AgentTask.mark_failed`. -/
def AgentTask.mark_failed (t : AgentTask) (error : String) (now : Nat) : AgentTask :=
  { t with status := "failed", result := some [("error", .vstr error)],
           completed_at := some now }

/-- `base_agent.AgentState`. -/
inductive AgentState : Type where
  | idle | working | reviewing | completed | blocked | error | paused
deriving DecidableEq

/-- The running metrics of `BaseAgent._metrics` (`total_processing_time`
is a Python float, modelled as a rational). -/
structure AgentMetrics : Type where
  tasks_completed : Nat
  tasks_failed : Nat
  messages_sent : Nat
  messages_received : Nat
  total_processing_time : ℚ
deriving DecidableEq

/-- The observable record of a `BaseAgent` instance: identity, state and
metrics (the LLM handle, bus and handler tables play no part in the
claims' functions and carry no data the claims mention). -/
structure AgentRec : Type where
  agent_id : String
  agent_type : String
  name : String
  state : AgentState
  metrics : AgentMetrics
  current_task : Option String
deriving DecidableEq

/-- `BaseAgent.is_available`: state is IDLE or COMPLETED. -/
def AgentRec.is_available (a : AgentRec) : Bool :=
  a.state = AgentState.idle || a.state = AgentState.completed

/-- Error kinds raised by `BaseAgent.execute_task` (§7 taxonomy):
`agentUnavailable` is the `RuntimeError` for a busy agent, and
`taskExecutionFailed` re-raises the failure of the delegated
`process_task`. -/
inductive ExecError : Type where
  | agentUnavailable (agentName : String) (state : AgentState)
  | taskExecutionFailed (message : String)
deriving DecidableEq

/-- `BaseAgent._check_dependencies`: the source returns `True`
unconditionally ("For now, return True"). -/
def check_dependencies (_dependencies : List String) : Bool := true

/-- `BaseAgent.execute_task` with full lifecycle management.
`processResult` stands for the outcome of the delegated abstract
`process_task` coroutine (`Except.error e` models it raising with message
`e`); `tStart`/`tEnd` stand for the two `datetime.utcnow()` readings, so
the recorded processing time is `tEnd - tStart`.  Returns the raised or
returned value together with the agent and task objects after the call. -/
def execute_task (a : AgentRec) (task : AgentTask)
    (processResult : Except String (List (String × DVal))) (tStart tEnd : Nat) :
    Except ExecError (List (String × DVal)) × AgentRec × AgentTask :=
  if ¬ a.is_available then
    (.error (.agentUnavailable a.name a.state), a, task)
  else
    let task₁ := task.mark_started tStart
    let a₁ := { a with current_task := some task.task_id, state := .working }
    if task₁.dependencies ≠ [] ∧ ¬ check_dependencies task₁.dependencies then
      -- unreachable: `check_dependencies` is constantly true
      (.ok [("status", .vstr "blocked"), ("reason", .vstr "Dependencies not satisfied")],
        { a₁ with state := .blocked, current_task := none },
        { task₁ with status := "blocked",
                     metadata := ainsert task₁.metadata "blocked_reason"
                       (.vstr "Dependencies not satisfied") })
    else
      match processResult with
      | .ok result =>
        let task₂ := task₁.mark_completed result tEnd
        let a₂ := { a₁ with
          metrics := { a₁.metrics with
            tasks_completed := a₁.metrics.tasks_completed + 1,
            total_processing_time :=
              a₁.metrics.total_processing_time + ((tEnd - tStart : Nat) : ℚ) },
          state := .completed,
          current_task := none }
        (.ok result, a₂, task₂)
      | .error e =>
        let task₂ := task₁.mark_failed e tEnd
        let a₂ := { a₁ with
          metrics := { a₁.metrics with tasks_failed := a₁.metrics.tasks_failed + 1 },
          state := .error,
          current_task := none }
        (.error (.taskExecutionFailed e), a₂, task₂)

/-- The state of `agent_registry.AgentRegistry`: agents by id and the
type index (type → list of agent ids). -/
structure RegState : Type where
  agents : List (String × AgentRec)
  agent_types : List (String × List String)
deriving DecidableEq

/-- A freshly initialised registry. -/
def RegState.init : RegState := { agents := [], agent_types := [] }

/-- `AgentRegistry.register_agent`. -/
def RegState.register_agent (s : RegState) (a : AgentRec) : RegState :=
  { agents := ainsert s.agents a.agent_id a,
    agent_types := ainsert s.agent_types a.agent_type
      ((alookup s.agent_types a.agent_type).getD [] ++ [a.agent_id]) }

/-- First-occurrence removal, as Python's `list.remove` (which the source
only calls when the element is present). -/
def RegState.removeFirst : List String → String → List String
  | [], _ => []
  | x :: l, y => if x = y then l else x :: removeFirst l y

/-- `AgentRegistry.unregister_agent`. -/
def RegState.unregister_agent (s : RegState) (agent_id : String) : RegState :=
  match alookup s.agents agent_id with
  | none => s
  | some a =>
    let agents' := aerase s.agents agent_id
    match alookup s.agent_types a.agent_type with
    | none => { s with agents := agents' }
    | some ids =>
      let ids' := removeFirst ids agent_id
      if ids' = [] then
        { agents := agents', agent_types := aerase s.agent_types a.agent_type }
      else
        { agents := agents', agent_types := ainsert s.agent_types a.agent_type ids' }

/-- `AgentRegistry.get_agent`. -/
def RegState.get_agent (s : RegState) (agent_id : String) : Option AgentRec :=
  alookup s.agents agent_id

/-- `AgentRegistry.get_agents_by_type`:
`[self._agents[aid] for aid in agent_ids if aid in self._agents]`. -/
def RegState.get_agents_by_type (s : RegState) (agent_type : String) : List AgentRec :=
  ((alookup s.agent_types agent_type).getD []).filterMap (fun aid => alookup s.agents aid)

/-- The scoring closure in `AgentRegistry.get_best_agent` (lower is
better): `failure_rate * 100` when any task ran, plus `avg_time * 0.1`
when any task completed. -/
def RegState.score_agent (a : AgentRec) : ℚ :=
  let total_tasks := a.metrics.tasks_completed + a.metrics.tasks_failed
  let s₁ : ℚ := if 0 < total_tasks then
    (a.metrics.tasks_failed : ℚ) / (total_tasks : ℚ) * 100 else 0
  let s₂ : ℚ := if 0 < a.metrics.tasks_completed then
    a.metrics.total_processing_time / (a.metrics.tasks_completed : ℚ) * (1 / 10) else 0
  s₁ + s₂

/-- Python's `min(xs, key=f)` on a nonempty list: left fold keeping the
first element whose key is strictly smaller than the incumbent's. -/
def RegState.pyMin (f : AgentRec → ℚ) (best : AgentRec) : List AgentRec → AgentRec
  | [] => best
  | x :: l => pyMin f (if f x < f best then x else best) l

/-- `AgentRegistry.get_best_agent` (the `task_type` argument is unused in
the source). -/
def RegState.get_best_agent (s : RegState) (agent_type : String) : Option AgentRec :=
  let available_agents := (get_agents_by_type s agent_type).filter (·.is_available)
  match available_agents with
  | [] => none
  | [a] => some a
  | a :: rest => some (pyMin score_agent a rest)

/-- Metrics of `message_bus.InMemoryMessageBus`. -/
structure BusMetrics : Type where
  messages_published : Nat
  messages_delivered : Nat
  messages_failed : Nat

/-- The state of `InMemoryMessageBus` that its publishing operations
touch: the internal queue, the bounded history and the metrics. -/
structure BusState : Type where
  message_queue : List AgentMessage
  message_history : List AgentMessage
  max_history : Nat
  metrics : BusMetrics

/-- A freshly initialised bus. -/
def BusState.init : BusState :=
  { message_queue := [], message_history := [], max_history := 1000,
    metrics := { messages_published := 0, messages_delivered := 0, messages_failed := 0 } }

/-- `InMemoryMessageBus.publish`: enqueue the message, bump the counter
and append to the bounded history.  The returned message is the message
object after the call (`publish` performs no field assignment on it). -/
def BusState.publish (s : BusState) (message : AgentMessage) : BusState × AgentMessage :=
  let history := s.message_history ++ [message]
  let history := if s.max_history < history.length then history.drop 1 else history
  ({ s with message_queue := s.message_queue ++ [message],
            metrics := { s.metrics with
              messages_published := s.metrics.messages_published + 1 },
            message_history := history },
   message)

/-- `InMemoryMessageBus.send_direct`: assigns `message.recipient =
recipient_id` on the message object, then publishes it.  The returned
message is the message object after the call. -/
def BusState.send_direct (s : BusState) (recipient_id : String) (message : AgentMessage) :
    BusState × AgentMessage :=
  publish s { message with recipient := recipient_id }

/-- `task_queue.PriorityQueueItem`: wrapper pushed on the heaps, carrying
the task's priority number and creation timestamp. -/
structure QItem : Type where
  priority : Nat
  timestamp : Nat
  task : AgentTask

/-- `PriorityQueueItem.__lt__`: lower priority number first, ties broken
by earlier timestamp. -/
def QItem.lt (a b : QItem) : Bool :=
  if a.priority ≠ b.priority then decide (a.priority < b.priority)
  else decide (a.timestamp < b.timestamp)

/-- The model of `heapq.heappop` on the bus's priority list: removes a
least element under `PriorityQueueItem.__lt__` (the leftmost one among
equals), per the `heapq` contract that `heappop` returns the smallest
item.  `heapq.heappush` is correspondingly modelled as appending to the
collection. -/
def popMin : List QItem → Option (QItem × List QItem)
  | [] => none
  | a :: l =>
    match popMin l with
    | none => some (a, [])
    | some (m, l') => if QItem.lt m a then some (m, a :: l') else some (a, l)

/-- Metrics of `InMemoryTaskQueue`. -/
structure QMetrics : Type where
  total_enqueued : Nat
  total_completed : Nat
  total_failed : Nat

/-- The state of `task_queue.InMemoryTaskQueue`: the main priority list,
the per-agent-type priority lists, the id-indexed task store and the
status buckets the claims touch. -/
structure QState : Type where
  queue : List QItem
  type_queues : List (String × List QItem)
  tasks : List (String × AgentTask)
  pending_tasks : List (String × AgentTask)
  running_tasks : List (String × AgentTask)
  completed_tasks : List (String × AgentTask)
  failed_tasks : List (String × AgentTask)
  metrics : QMetrics

/-- A freshly initialised queue. -/
def QState.init : QState :=
  { queue := [], type_queues := [], tasks := [], pending_tasks := [],
    running_tasks := [], completed_tasks := [], failed_tasks := [],
    metrics := { total_enqueued := 0, total_completed := 0, total_failed := 0 } }

/-- `InMemoryTaskQueue.enqueue`: store the task, mark it pending, push a
priority item on the main heap and, when an agent is assigned, on the
agent-type heap (`task.assigned_agent.split("-")[0]`). -/
def QState.enqueue (s : QState) (task : AgentTask) : String × QState :=
  let s₁ := { s with tasks := ainsert s.tasks task.task_id task,
                     pending_tasks := ainsert s.pending_tasks task.task_id task }
  let item : QItem := { priority := task.priority.value, timestamp := task.created_at,
                        task := task }
  let s₂ := { s₁ with queue := s₁.queue ++ [item] }
  let s₃ :=
    match task.assigned_agent with
    | none => s₂
    | some aid =>
      if aid = "" then s₂  -- Python truthiness: empty string is falsy
      else
        let parts := aid.splitOn "-"
        let agent_type := if 1 < parts.length then parts.headD aid else aid
        let tq := (alookup s₂.type_queues agent_type).getD [] ++ [item]
        { s₂ with type_queues := ainsert s₂.type_queues agent_type tq }
  (task.task_id,
   { s₃ with metrics := { s₃.metrics with total_enqueued := s₃.metrics.total_enqueued + 1 } })

/-- The `while queue:` loop body of `InMemoryTaskQueue.dequeue`: pop
items until one is still pending (then move it pending → running and
return it) or the heap is drained.  `fuel` is an upper bound on the
number of pops; the callers pass the heap's length, which suffices since
each pop removes one item. -/
def QState.dequeueLoop :
    Nat → List QItem → List (String × AgentTask) → List (String × AgentTask) →
    Option AgentTask × List QItem × List (String × AgentTask) × List (String × AgentTask)
  | 0, q, pending, running => (none, q, pending, running)
  | fuel + 1, q, pending, running =>
    match popMin q with
    | none => (none, q, pending, running)
    | some (item, q') =>
      if (alookup pending item.task.task_id).isSome then
        (some item.task, q', aerase pending item.task.task_id,
         ainsert running item.task.task_id item.task)
      else
        dequeueLoop fuel q' pending running

/-- The main-heap path of `InMemoryTaskQueue.dequeue` (taken whenever
the agent-type filter is absent, empty or has no per-type heap): run the
pop loop on `_queue` and write the drained heap back. -/
def QState.dequeueMain (s : QState) : Option AgentTask × QState :=
  ((dequeueLoop s.queue.length s.queue s.pending_tasks s.running_tasks).1,
   { s with
      queue := (dequeueLoop s.queue.length s.queue s.pending_tasks s.running_tasks).2.1,
      pending_tasks :=
        (dequeueLoop s.queue.length s.queue s.pending_tasks s.running_tasks).2.2.1,
      running_tasks :=
        (dequeueLoop s.queue.length s.queue s.pending_tasks s.running_tasks).2.2.2 })

/-- `InMemoryTaskQueue.dequeue`: select the per-type heap when
`agent_type` is truthy (`if agent_type and agent_type in
self._type_queues`) and present, else the main heap, then run the pop
loop and write the drained heap back. -/
def QState.dequeue (s : QState) (agent_type : Option String) : Option AgentTask × QState :=
  match agent_type with
  | some ty =>
    if ty ≠ "" && (alookup s.type_queues ty).isSome then
      let q := (alookup s.type_queues ty).getD []
      let step := dequeueLoop q.length q s.pending_tasks s.running_tasks
      (step.1, { s with type_queues := ainsert s.type_queues ty step.2.1,
                        pending_tasks := step.2.2.1, running_tasks := step.2.2.2 })
    else
      dequeueMain s
  | none => dequeueMain s

/-- `InMemoryTaskQueue.get_task`. -/
def QState.get_task (s : QState) (task_id : String) : Option AgentTask :=
  alookup s.tasks task_id

/-- `InMemoryTaskQueue.cancel_task` (`now` models `datetime.utcnow()`):
only a pending task can be cancelled; its status becomes "cancelled", a
`cancelled_at` stamp is written into its metadata and it leaves the
pending bucket (the task object is shared with the `_tasks` store, so the
store sees the same update). -/
def QState.cancel_task (s : QState) (task_id : String) (now : Nat) : Bool × QState :=
  match alookup s.pending_tasks task_id with
  | none => (false, s)
  | some task =>
    let task' := { task with status := "cancelled",
                             metadata := ainsert task.metadata "cancelled_at" (.vtime now) }
    (true, { s with tasks := ainsert s.tasks task_id task',
                    pending_tasks := aerase s.pending_tasks task_id })

/-- `task_queue.DependencyTracker`: forward and inverse dependency maps
plus the set of task ids marked completed. -/
structure DependencyTracker : Type where
  dependencies : List (String × List String)
  dependents : List (String × List String)
  completed : List String

/-- A freshly initialised tracker. -/
def DependencyTracker.init : DependencyTracker := { dependencies := [], dependents := [], completed := [] }

/-- `DependencyTracker.add_dependency`. -/
def DependencyTracker.add_dependency (tr : DependencyTracker) (task_id depends_on : String) :
    DependencyTracker :=
  let deps := (alookup tr.dependencies task_id).getD [] ++ [depends_on]
  let dnts := (alookup tr.dependents depends_on).getD [] ++ [task_id]
  { tr with dependencies := ainsert tr.dependencies task_id deps,
            dependents := ainsert tr.dependents depends_on dnts }

/-- `DependencyTracker.mark_completed` (`set.add`). -/
def DependencyTracker.mark_completed (tr : DependencyTracker) (task_id : String) : DependencyTracker :=
  if task_id ∈ tr.completed then tr else { tr with completed := task_id :: tr.completed }

/-- `DependencyTracker.can_execute`: every dependency of the task is in
the completed set. -/
def DependencyTracker.can_execute (tr : DependencyTracker) (task_id : String) : Bool :=
  ((alookup tr.dependencies task_id).getD []).all (fun dep => dep ∈ tr.completed)

/-- `DependencyTracker.get_ready_tasks`. -/
def DependencyTracker.get_ready_tasks (tr : DependencyTracker) (pending_tasks : List String) : List String :=
  pending_tasks.filter (fun t => can_execute tr t)

/-- `workflow_engine.WorkflowStatus`. -/
inductive WorkflowStatus : Type where
  | pending | running | paused | waiting_approval | completed | failed | cancelled
deriving DecidableEq

/-- `workflow_engine.StepType`. -/
inductive StepType : Type where
  | agent_task | parallel_steps | conditional | human_review | loop_steps | wait_step
deriving DecidableEq

/-- `workflow_engine.WorkflowStep` (the fields the engine's approve /
reject path reads; the condition callable is outside the claims). -/
structure WorkflowStep : Type where
  step_id : String
  name : String
  step_type : StepType
  agent_type : Option String
  task_type : Option String
  on_failure : String
deriving DecidableEq

/-- `workflow_engine.WorkflowExecution`. -/
structure WorkflowExecution : Type where
  execution_id : String
  workflow_id : String
  status : WorkflowStatus
  context : List (String × DVal)
  current_step_index : Nat
  step_results : List (String × DVal)
  started_at : Option Nat
  completed_at : Option Nat
  error : Option String
  metadata : List (String × DVal)

/-- `workflow_engine.Workflow`. -/
structure Workflow : Type where
  workflow_id : String
  name : String
  description : String
  steps : List WorkflowStep
  initial_context : List (String × DVal)

/-- Error kinds raised by `WorkflowEngine.approve_step` / `reject_step`
(§7 taxonomy): `noPendingApproval` and `workflowNotFound` are the two
`ValueError`s; `stepIndexError` models the `IndexError` were
`workflow.steps[...]` indexed out of range. -/
inductive WfError : Type where
  | noPendingApproval | workflowNotFound | stepIndexError
deriving DecidableEq

/-- The state of `workflow_engine.WorkflowEngine` that `approve_step` /
`reject_step` touch.  `_pending_approvals` and `_executions` hold the
same `WorkflowExecution` objects in Python; here both maps carry the
execution value, and a mutation of the object is modelled by updating
the entry in every map that holds it (`aupdate`). -/
structure EngineState : Type where
  workflows : List (String × Workflow)
  executions : List (String × WorkflowExecution)
  pending_approvals : List (String × WorkflowExecution)

/-- `WorkflowEngine.approve_step`, modelled up to (not including) the
final `_run_workflow` resume call: both claims about it concern the
execution state before resuming.  `tNow` models `datetime.utcnow()`.
An error result carries the state at the raise point; both `raise`
statements precede every mutation, so that state is the input state. -/
def EngineState.approve_step (s : EngineState) (execution_id : String) (feedback : Option String)
    (context_updates : List (String × DVal)) (tNow : Nat) :
    Option WfError × EngineState :=
  match alookup s.pending_approvals execution_id with
  | none => (some .noPendingApproval, s)
  | some ex =>
    match alookup s.workflows ex.workflow_id with
    | none => (some .workflowNotFound, s)
    | some _workflow =>
      let ex₁ := { ex with context := aupdateAll ex.context context_updates }
      let info := DVal.vdict [("approved", .vbool true),
        ("feedback", match feedback with | some f => .vstr f | none => .vnull),
        ("approved_at", .vtime tNow)]
      let key := "approval_" ++ toString ex₁.current_step_index
      let ex₂ := { ex₁ with step_results := ainsert ex₁.step_results key info }
      let ex₃ := { ex₂ with current_step_index := ex₂.current_step_index + 1,
                            status := WorkflowStatus.running }
      (none, { s with pending_approvals := aerase s.pending_approvals execution_id,
                      executions := aupdate s.executions execution_id ex₃ })

/-- `WorkflowEngine.reject_step`, modelled up to (not including) the
final `_run_workflow` resume call.  The feedback keys
`{step_name}_feedback` and `{step_name}_review_status` are written into
the context and the step index is decremented, clamped at zero. -/
def EngineState.reject_step (s : EngineState) (execution_id : String) (feedback : String)
    (context_updates : List (String × DVal)) (tNow : Nat) :
    Option WfError × EngineState :=
  match alookup s.pending_approvals execution_id with
  | none => (some .noPendingApproval, s)
  | some ex =>
    match alookup s.workflows ex.workflow_id with
    | none => (some .workflowNotFound, s)
    | some workflow =>
      let ex₁ := { ex with context := aupdateAll ex.context context_updates }
      match workflow.steps.get? ex₁.current_step_index with
      | none =>
        -- `workflow.steps[i]` raises IndexError; the context updates above
        -- have already been applied to the shared execution object.
        (some .stepIndexError,
          { s with executions := aupdate s.executions execution_id ex₁,
                   pending_approvals := aupdate s.pending_approvals execution_id ex₁ })
      | some current_step =>
        let ctx₁ := ainsert ex₁.context (current_step.name ++ "_feedback") (.vstr feedback)
        let ctx₂ := ainsert ctx₁ (current_step.name ++ "_review_status") (.vstr "rejected")
        let ex₂ := { ex₁ with context := ctx₂ }
        let info := DVal.vdict [("approved", .vbool false),
          ("feedback", .vstr feedback), ("rejected_at", .vtime tNow)]
        let key := "approval_" ++ toString ex₂.current_step_index
        let ex₃ := { ex₂ with step_results := ainsert ex₂.step_results key info }
        let idx := if 0 < ex₃.current_step_index then ex₃.current_step_index - 1
                   else ex₃.current_step_index
        let ex₄ := { ex₃ with current_step_index := idx, status := WorkflowStatus.running }
        (none, { s with pending_approvals := aerase s.pending_approvals execution_id,
                        executions := aupdate s.executions execution_id ex₄ })

/-- `WorkflowEngine.get_execution`. -/
def EngineState.get_execution (s : EngineState) (execution_id : String) : Option WorkflowExecution :=
  alookup s.executions execution_id

/-- A sample message addressed to "alice". -/
def sampleMessage : AgentMessage :=
  { sender := "agent-1", recipient := "alice", message_type := .notify,
    payload := [("event", .vstr "task_completed")], priority := .normal,
    context := [], correlation_id := "cid-1", parent_id := none,
    timestamp := 3, metadata := [] }

/-- A sample task "t1" that depends on task "d1" (high urgency). -/
def taskT : AgentTask :=
  { task_id := "t1", task_type := "analysis", input_data := [],
    assigned_agent := none, status := "pending", result := none,
    created_at := 1, started_at := none, completed_at := none,
    parent_task_id := none, dependencies := ["d1"], priority := .critical,
    metadata := [] }

/-- The sample task "d1" that "t1" depends on (normal urgency, still
pending). -/
def taskD : AgentTask :=
  { task_id := "d1", task_type := "analysis", input_data := [],
    assigned_agent := none, status := "pending", result := none,
    created_at := 0, started_at := none, completed_at := none,
    parent_task_id := none, dependencies := [], priority := .normal,
    metadata := [] }

/-- The queue after enqueuing `taskD` then `taskT`. -/
def queueTD : QState := (QState.enqueue (QState.enqueue QState.init taskD).2 taskT).2

/-- The tracker recording that "t1" depends on "d1" (not completed). -/
def trackerTD : DependencyTracker := DependencyTracker.init.add_dependency "t1" "d1"

/-- Fresh metrics (all counters zero). -/
def freshMetrics : AgentMetrics :=
  { tasks_completed := 0, tasks_failed := 0, messages_sent := 0,
    messages_received := 0, total_processing_time := 0 }

/-- A currently working (unavailable) agent. -/
def busyAgent : AgentRec :=
  { agent_id := "dev-1", agent_type := "developer", name := "Busy",
    state := .working, metrics := freshMetrics, current_task := none }

/-- An idle (available) agent. -/
def idleAgent : AgentRec :=
  { agent_id := "dev-2", agent_type := "developer", name := "Idle",
    state := .idle, metrics := freshMetrics, current_task := none }

/-- An engine with no workflows, executions or pending approvals. -/
def emptyEngine : EngineState :=
  { workflows := [], executions := [], pending_approvals := [] }

/-- The sample two-step workflow: an agent step then a human review. -/
def sampleWorkflow : Workflow :=
  { workflow_id := "w1", name := "sample", description := "sample workflow",
    steps := [{ step_id := "s0", name := "generate_user_stories",
                step_type := .agent_task, agent_type := some "business_analyst",
                task_type := some "generate_user_stories", on_failure := "fail" },
              { step_id := "s1", name := "review_user_stories",
                step_type := .human_review, agent_type := none,
                task_type := none, on_failure := "fail" }],
    initial_context := [] }

/-- The sample execution of `sampleWorkflow`, paused at the review step
(index 1) awaiting approval. -/
def sampleExecution : WorkflowExecution :=
  { execution_id := "e1", workflow_id := "w1",
    status := WorkflowStatus.waiting_approval,
    context := [("user_stories", .vstr "stories")], current_step_index := 1,
    step_results := [], started_at := some 0, completed_at := none,
    error := none, metadata := [] }

/-- The engine holding `sampleWorkflow` with `sampleExecution` pending
approval. -/
def sampleEngine : EngineState :=
  { workflows := [("w1", sampleWorkflow)],
    executions := [("e1", sampleExecution)],
    pending_approvals := [("e1", sampleExecution)] }

/-- Agent A of the spec's example: 0 failures, 10 completed, 20s total
processing time (average 2s); score 0.2. -/
def agentA : AgentRec :=
  { agent_id := "dev-A", agent_type := "developer", name := "A",
    state := .idle,
    metrics := { tasks_completed := 10, tasks_failed := 0, messages_sent := 0,
                 messages_received := 0, total_processing_time := 20 },
    current_task := none }

/-- Agent B of the spec's example: 2 failures, 8 completed, 8s total
processing time (average 1s); score 20.1. -/
def agentB : AgentRec :=
  { agent_id := "dev-B", agent_type := "developer", name := "B",
    state := .idle,
    metrics := { tasks_completed := 8, tasks_failed := 2, messages_sent := 0,
                 messages_received := 0, total_processing_time := 8 },
    current_task := none }

/-- The registry with agents A and B registered (in that order). -/
def exampleRegistry : RegState :=
  RegState.register_agent (RegState.register_agent RegState.init agentA) agentB

/-- The registry after A and B both became busy (working). -/
def busyRegistry : RegState :=
  RegState.register_agent
    (RegState.register_agent RegState.init { agentA with state := .working })
    { agentB with state := .working }

/-- A registry operation: register an agent instance or unregister an
agent id.  Reachable registry states are those obtained by a sequence of
such operations from the fresh registry. -/
inductive RegOp : Type where
  | register (a : AgentRec)
  | unregister (agent_id : String)

/-- Apply one registry operation. -/
def applyRegOp (s : RegState) : RegOp → RegState
  | .register a => s.register_agent a
  | .unregister aid => s.unregister_agent aid

/-- Apply a sequence of registry operations to the fresh registry. -/
def applyRegOps (ops : List RegOp) : RegState :=
  ops.foldl applyRegOp RegState.init

/-- The id-map invariant: every binding in `_agents` maps an id to an
agent carrying that id. -/
def AgentsKeyed (s : RegState) : Prop :=
  ∀ p ∈ s.agents, (p.2 : AgentRec).agent_id = p.1

/-- The type-index sequence: register the same agent twice, then
unregister it once. -/
def dupRegOps : List RegOp :=
  [RegOp.register idleAgent, RegOp.register idleAgent,
   RegOp.unregister idleAgent.agent_id]

/-- Repeatedly pop the least remaining item, at most `fuel` times
(callers pass the list's length, which drains it completely). -/
def heapDrainFuel : Nat → List QItem → List QItem
  | 0, _ => []
  | fuel + 1, l =>
    match popMin l with
    | none => []
    | some (m, l') => m :: heapDrainFuel fuel l'

/-- A sequence of `dequeue` calls with the given agent-type filters,
returning the dequeued tasks in order and the final queue state. -/
def dequeueSeq : List (Option String) → QState → List AgentTask × QState
  | [], s => ([], s)
  | ty :: tys, s =>
    let step := QState.dequeue s ty
    let rest := dequeueSeq tys step.2
    (match step.1 with
     | some t => t :: rest.1
     | none => rest.1,
     rest.2)

/-- Enqueue a list of tasks in order. -/
def enqueueAll (s : QState) (ts : List AgentTask) : QState :=
  ts.foldl (fun s t => (QState.enqueue s t).2) s

/-- The priority item `enqueue` builds for a task. -/
def toItem (t : AgentTask) : QItem :=
  { priority := t.priority.value, timestamp := t.created_at, task := t }

/-! ## Theorems -/

theorem alookup_ainsert {α : Type} (m : List (String × α)) (k k' : String) (v : α) :
    alookup (ainsert m k v) k' = if k = k' then some v else alookup m k' := by
  induction m with
  | nil => simp [ainsert, alookup]
  | cons kv l ih =>
    obtain ⟨k₀, v₀⟩ := kv
    by_cases h₀ : k₀ = k
    · subst h₀
      by_cases h : k₀ = k' <;> simp [ainsert, alookup, h]
    · by_cases h : k₀ = k'
      · have hkk : ¬ k = k' := fun hh => h₀ (hh.trans h.symm).symm
        have hkk' : ¬ k' = k := fun hh => h₀ (h.trans hh)
        simp [ainsert, alookup, h₀, h, hkk, hkk']
      · simp [ainsert, alookup, h₀, h, ih]

theorem alookup_aerase_self {α : Type} (m : List (String × α)) (k : String)
    (hnd : (m.map Prod.fst).Nodup) :
    alookup (aerase m k) k = none := by
  induction m with
  | nil => rfl
  | cons kv l ih =>
    obtain ⟨k₀, v₀⟩ := kv
    simp only [List.map_cons, List.nodup_cons, List.mem_map] at hnd
    by_cases h₀ : k₀ = k
    · subst h₀
      simp only [aerase, if_pos rfl]
      clear ih
      induction l with
      | nil => rfl
      | cons kv' l' ih' =>
        obtain ⟨k₁, v₁⟩ := kv'
        simp only [List.mem_cons, List.map_cons, List.nodup_cons, List.mem_map] at hnd
        have hk₁ : ¬ k₁ = k₀ := fun h => hnd.1 ⟨(k₁, v₁), Or.inl rfl, h⟩
        simp only [alookup, if_neg hk₁]
        exact ih' ⟨fun ⟨p, hp, he⟩ => hnd.1 ⟨p, Or.inr hp, he⟩, hnd.2.2⟩
    · simp only [aerase, if_neg h₀, alookup, if_neg h₀]
      exact ih hnd.2

theorem alookup_aerase_none {α : Type} (m : List (String × α)) (k k' : String)
    (h : alookup m k' = none) :
    alookup (aerase m k) k' = none := by
  induction m with
  | nil => rfl
  | cons kv l ih =>
    obtain ⟨k₀, v₀⟩ := kv
    by_cases h₀ : k₀ = k'
    · simp [alookup, h₀] at h
    · simp only [alookup, if_neg h₀] at h
      by_cases h₁ : k₀ = k
      · simpa [aerase, h₁] using h
      · simp only [aerase, if_neg h₁, alookup, if_neg h₀]
        exact ih h

theorem alookup_aerase_ne {α : Type} (m : List (String × α)) (k k' : String)
    (h : ¬ k = k') :
    alookup (aerase m k) k' = alookup m k' := by
  induction m with
  | nil => rfl
  | cons kv l ih =>
    obtain ⟨k₀, v₀⟩ := kv
    by_cases h₁ : k₀ = k
    · subst h₁
      simp [aerase, alookup, h]
    · by_cases h₂ : k₀ = k'
      · have h₂' : ¬ k' = k := fun hh => h₁ (h₂.trans hh)
        simp [aerase, alookup, h₁, h₂, h₂', ih]
      · simp [aerase, alookup, h₁, h₂, ih]

theorem alookup_aupdate {α : Type} (m : List (String × α)) (k k' : String) (v : α) :
    alookup (aupdate m k v) k' =
      if k = k' ∧ (alookup m k).isSome then some v else alookup m k' := by
  induction m with
  | nil => simp [aupdate, alookup]
  | cons kv l ih =>
    obtain ⟨k₀, v₀⟩ := kv
    by_cases h₀ : k₀ = k
    · subst h₀
      by_cases h : k₀ = k' <;> simp [aupdate, alookup, h]
    · have hne : ¬ k = k₀ := fun hh => h₀ hh.symm
      by_cases h : k₀ = k'
      · subst h
        have hkk : ¬ (k = k₀ ∧ (alookup ((k₀, v₀) :: l) k).isSome) := fun hh => hne hh.1
        simp [aupdate, alookup, h₀, hne, hkk]
      · simp [aupdate, alookup, h₀, h, ih]

theorem MessageType.ofValue_roundtrip (t : MessageType) : ofValue t.value = some t := by
  cases t <;> rfl

theorem MessagePriority.value_roundtrip (p : MessagePriority) : ofValue p.value = some p := by
  cases p <;> rfl

theorem AgentTask.strListOf_map (l : List String) : strListOf (l.map .vstr) = some l := by
  induction l with
  | nil => rfl
  | cons s l ih => simp [strListOf, ih]

theorem QItem.lt_iff (a b : QItem) :
    lt a b = true ↔
      (a.priority < b.priority ∨ (a.priority = b.priority ∧ a.timestamp < b.timestamp)) := by
  by_cases h : a.priority = b.priority
  · simp [lt, h]
  · simp only [lt, if_pos (by exact h), decide_eq_true_eq]
    omega

theorem QItem.not_lt_iff (a b : QItem) :
    lt a b = false ↔
      (b.priority < a.priority ∨ (a.priority = b.priority ∧ b.timestamp ≤ a.timestamp)) := by
  rw [← Bool.not_eq_true, lt_iff]
  by_cases h : a.priority = b.priority <;> constructor <;> intro hh <;> omega

theorem QItem.lt_irrefl (a : QItem) : lt a a = false := by
  simp [not_lt_iff]

theorem QItem.lt_asymm {a b : QItem} (h : lt a b = true) : lt b a = false := by
  rw [lt_iff] at h
  rw [not_lt_iff]
  omega

/-- Transitivity of the induced "not above" relation. -/
theorem QItem.not_lt_trans {a b c : QItem} (h₁ : lt b a = false) (h₂ : lt c b = false) :
    lt c a = false := by
  rw [not_lt_iff] at h₁ h₂ ⊢
  omega

/-- C1 (amended): `get_ready_tasks` gates on dependencies — it returns
exactly the pending ids whose every tracked dependency is marked
completed, so a task with a dependency not in the tracker's completed set
is never included. -/
theorem C1_get_ready_tasks_gating (tr : DependencyTracker) (pending : List String)
    (t d : String) (ds : List String)
    (h₁ : alookup tr.dependencies t = some ds) (h₂ : d ∈ ds) (h₃ : d ∉ tr.completed) :
    t ∉ tr.get_ready_tasks pending ∧
    ∀ (pending' : List String) (t' : String),
      t' ∈ tr.get_ready_tasks pending' ↔ t' ∈ pending' ∧ tr.can_execute t' = true := by
  have hchar : ∀ (pending' : List String) (t' : String),
      t' ∈ tr.get_ready_tasks pending' ↔ t' ∈ pending' ∧ tr.can_execute t' = true := by
    intro pending' t'
    simp [DependencyTracker.get_ready_tasks, List.mem_filter]
  refine ⟨?_, hchar⟩
  intro hmem
  have hexec : tr.can_execute t = true := ((hchar pending t).mp hmem).2
  rw [DependencyTracker.can_execute, h₁] at hexec
  simp only [Option.getD_some, List.all_eq_true] at hexec
  exact h₃ (by simpa using hexec d h₂)

/-- C1 witness: with "t1" depending on the uncompleted "d1", "t1" is not
ready even though it is pending. -/
theorem C1_get_ready_tasks_gating_witness :
    "t1" ∉ trackerTD.get_ready_tasks ["t1"] ∧
    ∀ (pending' : List String) (t' : String),
      t' ∈ trackerTD.get_ready_tasks pending' ↔
        t' ∈ pending' ∧ trackerTD.can_execute t' = true :=
  C1_get_ready_tasks_gating trackerTD ["t1"] "t1" "d1" ["d1"] rfl
    (by decide) (by decide)

/-- C1 counterexample: `dequeue` does not consult the dependency
tracker — it returns "t1" although its dependency "d1" is tracked,
uncompleted, and the task "d1" stored in the queue still has status
"pending" (not "completed"). -/
theorem C1_counterexample :
    (QState.dequeue queueTD none).1 = some taskT ∧
    taskT.dependencies = ["d1"] ∧
    (QState.get_task queueTD "d1").map (fun t => t.status) = some "pending" ∧
    ("pending" : String) ≠ "completed" ∧
    "d1" ∉ trackerTD.completed ∧
    trackerTD.can_execute "t1" = false := by
  refine ⟨rfl, rfl, rfl, by decide, by decide, rfl⟩

/-- C5: `execute_task` fails with AgentUnavailable when the agent state
is outside {idle, completed}, leaving the agent and the task untouched;
and when the delegated `process_task` raises, it marks the task failed,
increments `tasks_failed`, sets the agent state to error and re-raises
the failure as TaskExecutionFailed. -/
theorem C5_execute_task_error_paths (a : AgentRec) (task : AgentTask) (e : String)
    (pr : Except String (List (String × DVal))) (t₁ t₂ : Nat) :
    (a.is_available = false →
      execute_task a task pr t₁ t₂ =
        (.error (.agentUnavailable a.name a.state), a, task)) ∧
    (a.is_available = true → pr = .error e →
      (execute_task a task pr t₁ t₂).1 = .error (.taskExecutionFailed e) ∧
      (execute_task a task pr t₁ t₂).2.2.status = "failed" ∧
      (execute_task a task pr t₁ t₂).2.2.result = some [("error", .vstr e)] ∧
      (execute_task a task pr t₁ t₂).2.1.metrics.tasks_failed =
        a.metrics.tasks_failed + 1 ∧
      (execute_task a task pr t₁ t₂).2.1.state = AgentState.error) := by
  constructor
  · intro h
    simp [execute_task, h]
  · intro h hpr
    subst hpr
    simp [execute_task, h, check_dependencies, AgentTask.mark_failed,
      AgentTask.mark_started]

/-- C5 witness: a working agent rejects the task untouched; an idle agent
whose delegated work raises "boom" ends in error state with the failure
recorded. -/
theorem C5_execute_task_error_paths_witness :
    (execute_task busyAgent taskT (.ok []) 0 1 =
      (.error (.agentUnavailable "Busy" AgentState.working), busyAgent, taskT)) ∧
    ((execute_task idleAgent taskT (.error "boom") 0 1).1 =
      .error (.taskExecutionFailed "boom") ∧
     (execute_task idleAgent taskT (.error "boom") 0 1).2.2.status = "failed" ∧
     (execute_task idleAgent taskT (.error "boom") 0 1).2.2.result =
      some [("error", .vstr "boom")] ∧
     (execute_task idleAgent taskT (.error "boom") 0 1).2.1.metrics.tasks_failed =
      idleAgent.metrics.tasks_failed + 1 ∧
     (execute_task idleAgent taskT (.error "boom") 0 1).2.1.state = AgentState.error) :=
  ⟨(C5_execute_task_error_paths busyAgent taskT "x" (.ok []) 0 1).1 rfl,
   (C5_execute_task_error_paths idleAgent taskT "boom" (.error "boom") 0 1).2 rfl rfl⟩

/-- C6: `to_dict` followed by `from_dict` restores every field of an
`AgentMessage` and of an `AgentTask`; the result does not depend on the
fresh correlation id or the current-time defaults (`freshCid`,
`nowTime`), so a supplied `correlation_id` is taken as-is and never
regenerated. -/
theorem C6_to_dict_from_dict_roundtrip (m : AgentMessage) (task : AgentTask)
    (freshCid : String) (nowTime nowTime' : Nat) :
    AgentMessage.from_dict freshCid nowTime m.to_dict = some m ∧
    AgentTask.from_dict nowTime' task.to_dict = some task := by
  constructor
  · obtain ⟨s, r, mt, pl, pr, cx, cid, pid, ts, md⟩ := m
    cases pid <;>
      simp [AgentMessage.to_dict, AgentMessage.from_dict, alookup,
        MessageType.ofValue_roundtrip, MessagePriority.value_roundtrip]
  · obtain ⟨tid, tty, inp, asg, st, res, cre, sta, com, par, deps, pri, md⟩ := task
    cases asg <;> cases res <;> cases sta <;> cases com <;> cases par <;>
      simp [AgentTask.to_dict, AgentTask.from_dict, alookup,
        MessagePriority.value_roundtrip, AgentTask.strListOf_map]

/-- C8 counterexample: `send_direct` mutates the message — the message
object's `recipient` after `send_direct(bus, "bob", m)` is "bob", no
longer the original "alice". -/
theorem C8_counterexample :
    sampleMessage.recipient = "alice" ∧
    (BusState.send_direct BusState.init "bob" sampleMessage).2.recipient = "bob" ∧
    (BusState.send_direct BusState.init "bob" sampleMessage).2.recipient ≠
      sampleMessage.recipient := by
  refine ⟨rfl, rfl, by decide⟩

/-- C8 (amended): `publish` leaves the message entirely unchanged; and
`send_direct` overwrites exactly the `recipient` field with the given
recipient id, leaving sender, type, payload, priority, context,
correlation id, parent id, timestamp and metadata unchanged. -/
theorem C8_bus_message_frame (s : BusState) (m : AgentMessage) (rid : String) :
    (BusState.publish s m).2 = m ∧
    (BusState.send_direct s rid m).2 = { m with recipient := rid } :=
  ⟨rfl, rfl⟩

/-- C7: when an execution id has no pending approval recorded,
`approve_step` and `reject_step` raise NoPendingApproval and return the
engine state unchanged (so every execution's status, step index and
context are untouched). -/
theorem C7_no_pending_approval (s : EngineState) (eid : String)
    (fb : Option String) (fbr : String) (cu cu' : List (String × DVal)) (t t' : Nat)
    (h : alookup s.pending_approvals eid = none) :
    EngineState.approve_step s eid fb cu t = (some .noPendingApproval, s) ∧
    EngineState.reject_step s eid fbr cu' t' = (some .noPendingApproval, s) := by
  constructor
  · simp [EngineState.approve_step, h]
  · simp [EngineState.reject_step, h]

/-- C7 witness: on an engine with no pending approvals, both calls fail
with NoPendingApproval and leave the state unchanged. -/
theorem C7_no_pending_approval_witness :
    EngineState.approve_step emptyEngine "e1" none [] 0 =
      (some .noPendingApproval, emptyEngine) ∧
    EngineState.reject_step emptyEngine "e1" "bad" [] 0 =
      (some .noPendingApproval, emptyEngine) :=
  C7_no_pending_approval emptyEngine "e1" none "bad" [] [] 0 0 rfl

theorem append_right_ne (a : String) {b c : String} (h : b.data ≠ c.data) :
    a ++ b ≠ a ++ c := by
  intro hh
  apply h
  have hd := congrArg String.data hh
  rw [String.data_append, String.data_append] at hd
  exact List.append_cancel_left hd

/-- C2: on an execution paused at step index `i` awaiting approval,
`approve_step` sets the step index to `i + 1` and the status to running
before resuming; `reject_step` writes `{step_name}_feedback` and
`{step_name}_review_status = "rejected"` into the context and sets the
step index to `i - 1` (clamped at 0) and the status to running before
resuming. -/
theorem C2_approve_advances_reject_rewinds (s : EngineState) (eid : String)
    (ex : WorkflowExecution) (wf : Workflow) (i : Nat) (step : WorkflowStep)
    (fb : Option String) (fbr : String) (cu cu' : List (String × DVal)) (t t' : Nat)
    (hpend : alookup s.pending_approvals eid = some ex)
    (_hstatus : ex.status = WorkflowStatus.waiting_approval)
    (hidx : ex.current_step_index = i)
    (hwf : alookup s.workflows ex.workflow_id = some wf)
    (hexec : alookup s.executions eid = some ex)
    (hstep : wf.steps.get? i = some step) :
    ((EngineState.approve_step s eid fb cu t).1 = none ∧
     (alookup (EngineState.approve_step s eid fb cu t).2.executions eid).map
       (fun e => e.current_step_index) = some (i + 1) ∧
     (alookup (EngineState.approve_step s eid fb cu t).2.executions eid).map
       (fun e => e.status) = some WorkflowStatus.running) ∧
    ((EngineState.reject_step s eid fbr cu' t').1 = none ∧
     (alookup (EngineState.reject_step s eid fbr cu' t').2.executions eid).map
       (fun e => e.current_step_index) = some (i - 1) ∧
     (alookup (EngineState.reject_step s eid fbr cu' t').2.executions eid).map
       (fun e => e.status) = some WorkflowStatus.running ∧
     (alookup (EngineState.reject_step s eid fbr cu' t').2.executions eid).bind
       (fun e => alookup e.context (step.name ++ "_feedback")) = some (.vstr fbr) ∧
     (alookup (EngineState.reject_step s eid fbr cu' t').2.executions eid).bind
       (fun e => alookup e.context (step.name ++ "_review_status")) =
         some (.vstr "rejected")) := by
  have hsome : (alookup s.executions eid).isSome = true := by rw [hexec]; rfl
  constructor
  · simp only [EngineState.approve_step, hpend, hwf]
    refine ⟨trivial, ?_, ?_⟩
    · rw [alookup_aupdate]
      simp [hsome, hidx]
    · rw [alookup_aupdate]
      simp [hsome]
  · simp only [EngineState.reject_step, hpend, hwf, hstep, hidx]
    refine ⟨trivial, ?_, ?_, ?_, ?_⟩
    · rw [alookup_aupdate]
      simp [hsome]
      omega
    · rw [alookup_aupdate]
      simp [hsome]
    · rw [alookup_aupdate]
      simp only [hsome, and_true, eq_self_iff_true, if_true, Option.some_bind]
      rw [alookup_ainsert, if_neg (append_right_ne step.name (by decide))]
      simp [alookup_ainsert]
    · rw [alookup_aupdate]
      simp only [hsome, and_true, eq_self_iff_true, if_true, Option.some_bind]
      simp [alookup_ainsert]

/-- C2 witness: on the sample paused execution (step index 1), approval
advances to index 2 with status running, and rejection rewinds to index 0
with the feedback keys present in the context. -/
theorem C2_approve_advances_reject_rewinds_witness :
    ((EngineState.approve_step sampleEngine "e1" none [] 5).1 = none ∧
     (alookup (EngineState.approve_step sampleEngine "e1" none [] 5).2.executions "e1").map
       (fun e => e.current_step_index) = some (1 + 1) ∧
     (alookup (EngineState.approve_step sampleEngine "e1" none [] 5).2.executions "e1").map
       (fun e => e.status) = some WorkflowStatus.running) ∧
    ((EngineState.reject_step sampleEngine "e1" "needs work" [] 5).1 = none ∧
     (alookup (EngineState.reject_step sampleEngine "e1" "needs work" [] 5).2.executions
        "e1").map (fun e => e.current_step_index) = some (1 - 1) ∧
     (alookup (EngineState.reject_step sampleEngine "e1" "needs work" [] 5).2.executions
        "e1").map (fun e => e.status) = some WorkflowStatus.running ∧
     (alookup (EngineState.reject_step sampleEngine "e1" "needs work" [] 5).2.executions
        "e1").bind (fun e => alookup e.context ("review_user_stories" ++ "_feedback")) =
         some (.vstr "needs work") ∧
     (alookup (EngineState.reject_step sampleEngine "e1" "needs work" [] 5).2.executions
        "e1").bind (fun e => alookup e.context ("review_user_stories" ++ "_review_status")) =
         some (.vstr "rejected")) :=
  C2_approve_advances_reject_rewinds sampleEngine "e1" sampleExecution sampleWorkflow 1
    { step_id := "s1", name := "review_user_stories", step_type := .human_review,
      agent_type := none, task_type := none, on_failure := "fail" }
    none "needs work" [] [] 5 5 rfl rfl rfl rfl rfl rfl

/-- Python's `min(key=f)` returns an element of the list, of minimal key,
and — since it only replaces the incumbent on a strictly smaller key —
the first element attaining the minimum. -/
theorem pyMin_spec (f : AgentRec → ℚ) :
    ∀ (l : List AgentRec) (best : AgentRec),
      (∀ x ∈ best :: l, f (RegState.pyMin f best l) ≤ f x) ∧
      ∃ pre post, best :: l = pre ++ RegState.pyMin f best l :: post ∧
        ∀ y ∈ pre, f (RegState.pyMin f best l) < f y := by
  intro l
  induction l with
  | nil =>
    intro best
    refine ⟨?_, [], [], rfl, by simp⟩
    intro x hx
    simp only [List.mem_singleton] at hx
    subst hx
    exact le_refl _
  | cons x l ih =>
    intro best
    by_cases hx : f x < f best
    · have ihx := ih x
      rw [RegState.pyMin, if_pos hx]
      obtain ⟨hmin, pre, post, hsplit, hpre⟩ := ihx
      have hrx : f (RegState.pyMin f x l) ≤ f x := hmin x (List.mem_cons_self x l)
      refine ⟨?_, best :: pre, post, ?_, ?_⟩
      · intro y hy
        rcases List.mem_cons.mp hy with h | h
        · subst h
          exact le_trans hrx (le_of_lt hx)
        · exact hmin y h
      · rw [List.cons_append, ← hsplit]
      · intro y hy
        rcases List.mem_cons.mp hy with h | h
        · subst h
          exact lt_of_le_of_lt hrx hx
        · exact hpre y h
    · have ihb := ih best
      rw [RegState.pyMin, if_neg hx]
      obtain ⟨hmin, pre, post, hsplit, hpre⟩ := ihb
      have hbx : f best ≤ f x := le_of_not_lt hx
      have hrb : f (RegState.pyMin f best l) ≤ f best := hmin best (List.mem_cons_self best l)
      refine ⟨?_, ?_⟩
      · intro y hy
        rcases List.mem_cons.mp hy with h | h
        · subst h
          exact hrb
        · rcases List.mem_cons.mp h with h' | h'
          · subst h'
            exact le_trans hrb hbx
          · exact hmin y (List.mem_cons_of_mem _ h')
      · cases pre with
        | nil =>
          simp only [List.nil_append] at hsplit
          have hr : RegState.pyMin f best l = best := by
            have := congrArg (fun t => t.head?) hsplit
            simpa using this.symm
          refine ⟨[], x :: l, ?_, by simp⟩
          rw [hr]
          simp only [List.nil_append]
        | cons p pre' =>
          simp only [List.cons_append] at hsplit
          have hp : p = best := by
            have := congrArg (fun t => t.head?) hsplit
            simpa using this.symm
          have hl : l = pre' ++ RegState.pyMin f best l :: post := by
            have := congrArg List.tail hsplit
            simpa using this
          have hrbest : f (RegState.pyMin f best l) < f best :=
            hp ▸ hpre p (List.mem_cons_self _ _)
          refine ⟨best :: x :: pre', post, ?_, ?_⟩
          · rw [List.cons_append, List.cons_append, ← hl]
          · intro y hy
            rcases List.mem_cons.mp hy with h | h
            · subst h
              exact hrbest
            · rcases List.mem_cons.mp h with h' | h'
              · subst h'
                exact lt_of_lt_of_le hrbest hbx
              · exact hpre y (List.mem_cons_of_mem p h')

theorem score_agentA : RegState.score_agent agentA = 1 / 5 := by
  norm_num [RegState.score_agent, agentA]

theorem score_agentB : RegState.score_agent agentB = 201 / 10 := by
  norm_num [RegState.score_agent, agentB]

/-- On the spec's example (A: 0 failed / 10 completed, avg 2s; B: 2
failed / 8 completed, avg 1s), the best agent is A (0.2 < 20.1). -/
theorem get_best_agent_example :
    RegState.get_best_agent exampleRegistry "developer" = some agentA := by
  have h : ¬ (RegState.score_agent agentB < RegState.score_agent agentA) := by
    rw [score_agentA, score_agentB]
    norm_num
  show some (if RegState.score_agent agentB < RegState.score_agent agentA
      then agentB else agentA) = some agentA
  rw [if_neg h]

/-- C4: `get_best_agent` returns the first available agent of the type
attaining the minimal score `100·failure_rate + 0.1·avg_time` (so ties
break by registration order); it returns `none` when no agent of the
type is registered or none is available; and on the spec's A/B example
it returns A. -/
theorem C4_get_best_agent (s : RegState) (ty : String) :
    (((RegState.get_agents_by_type s ty).filter (fun a => a.is_available) = [] →
        RegState.get_best_agent s ty = none) ∧
     (∀ a, RegState.get_best_agent s ty = some a →
        (∀ b ∈ (RegState.get_agents_by_type s ty).filter (fun a => a.is_available),
          RegState.score_agent a ≤ RegState.score_agent b) ∧
        ∃ pre post,
          (RegState.get_agents_by_type s ty).filter (fun a => a.is_available) =
            pre ++ a :: post ∧
          ∀ b ∈ pre, RegState.score_agent a < RegState.score_agent b)) ∧
    RegState.get_best_agent exampleRegistry "developer" = some agentA ∧
    RegState.get_best_agent RegState.init "developer" = none ∧
    RegState.get_best_agent busyRegistry "developer" = none := by
  refine ⟨⟨?_, ?_⟩, get_best_agent_example, rfl, rfl⟩
  · intro h
    simp [RegState.get_best_agent, h]
  · intro a ha
    simp only [RegState.get_best_agent] at ha
    rcases havail :
        (RegState.get_agents_by_type s ty).filter (fun a => a.is_available) with
      _ | ⟨b, rest⟩
    · rw [havail] at ha
      exact Option.noConfusion ha
    · rw [havail] at ha
      rw [havail]
      cases rest with
      | nil =>
        have ha' : b = a := Option.some.inj ha
        subst ha'
        refine ⟨?_, [], [], rfl, by simp⟩
        intro c hc
        simp only [List.mem_singleton] at hc
        subst hc
        exact le_refl _
      | cons c rest' =>
        have ha' : RegState.pyMin RegState.score_agent b (c :: rest') = a :=
          Option.some.inj ha
        subst ha'
        exact pyMin_spec RegState.score_agent (c :: rest') b

/-- C4 witness: the empty filter case at the fresh registry, and the
minimality and first-minimum properties instantiated at the A/B example
(where `get_best_agent` returns A). -/
theorem C4_get_best_agent_witness :
    RegState.get_best_agent RegState.init "developer" = none ∧
    ((∀ b ∈ (RegState.get_agents_by_type exampleRegistry "developer").filter
        (fun a => a.is_available),
        RegState.score_agent agentA ≤ RegState.score_agent b) ∧
     ∃ pre post,
       (RegState.get_agents_by_type exampleRegistry "developer").filter
          (fun a => a.is_available) = pre ++ agentA :: post ∧
       ∀ b ∈ pre, RegState.score_agent agentA < RegState.score_agent b) :=
  ⟨(C4_get_best_agent RegState.init "developer").1.1 rfl,
   (C4_get_best_agent exampleRegistry "developer").1.2 agentA get_best_agent_example⟩

theorem mem_of_alookup {α : Type} {m : List (String × α)} {k : String} {v : α}
    (h : alookup m k = some v) : (k, v) ∈ m := by
  induction m with
  | nil => exact absurd h (by simp [alookup])
  | cons kv l ih =>
    obtain ⟨k₀, v₀⟩ := kv
    by_cases h₀ : k₀ = k
    · subst h₀
      simp only [alookup, eq_self_iff_true, if_true, Option.some.injEq] at h
      subst h
      exact List.mem_cons_self _ _
    · simp only [alookup, if_neg h₀] at h
      exact List.mem_cons_of_mem _ (ih h)

theorem mem_ainsert {α : Type} {m : List (String × α)} {k : String} {v : α}
    {p : String × α} (h : p ∈ ainsert m k v) : p = (k, v) ∨ p ∈ m := by
  induction m with
  | nil => simpa [ainsert] using h
  | cons kv l ih =>
    obtain ⟨k₀, v₀⟩ := kv
    by_cases h₀ : k₀ = k
    · subst h₀
      simp only [ainsert, if_pos rfl] at h
      rcases List.mem_cons.mp h with h' | h'
      · exact Or.inl h'
      · exact Or.inr (List.mem_cons_of_mem _ h')
    · simp only [ainsert, if_neg h₀] at h
      rcases List.mem_cons.mp h with h' | h'
      · exact Or.inr (h' ▸ List.mem_cons_self _ _)
      · rcases ih h' with h'' | h''
        · exact Or.inl h''
        · exact Or.inr (List.mem_cons_of_mem _ h'')

theorem mem_aerase {α : Type} {m : List (String × α)} {k : String}
    {p : String × α} (h : p ∈ aerase m k) : p ∈ m := by
  induction m with
  | nil => exact absurd h (by simp [aerase])
  | cons kv l ih =>
    obtain ⟨k₀, v₀⟩ := kv
    by_cases h₀ : k₀ = k
    · subst h₀
      simp only [aerase, if_pos rfl] at h
      exact List.mem_cons_of_mem _ h
    · simp only [aerase, if_neg h₀] at h
      rcases List.mem_cons.mp h with h' | h'
      · exact h' ▸ List.mem_cons_self _ _
      · exact List.mem_cons_of_mem _ (ih h')

theorem agentsKeyed_applyRegOp {s : RegState} (hs : AgentsKeyed s) (op : RegOp) :
    AgentsKeyed (applyRegOp s op) := by
  cases op with
  | register a =>
    intro p hp
    rcases mem_ainsert hp with h | h
    · rw [h]
    · exact hs p h
  | unregister aid =>
    rcases halo : alookup s.agents aid with _ | a
    · intro p hp
      simp only [applyRegOp, RegState.unregister_agent, halo] at hp
      exact hs p hp
    · rcases hty : alookup s.agent_types a.agent_type with _ | ids
      · intro p hp
        simp only [applyRegOp, RegState.unregister_agent, halo, hty] at hp
        exact hs p (mem_aerase hp)
      · by_cases hids : RegState.removeFirst ids aid = []
        · intro p hp
          simp only [applyRegOp, RegState.unregister_agent, halo, hty, hids,
            if_pos] at hp
          exact hs p (mem_aerase hp)
        · intro p hp
          simp only [applyRegOp, RegState.unregister_agent, halo, hty,
            if_neg hids] at hp
          exact hs p (mem_aerase hp)

theorem agentsKeyed_applyRegOps (ops : List RegOp) : AgentsKeyed (applyRegOps ops) := by
  have hbase : AgentsKeyed RegState.init := by
    intro p hp
    exact absurd hp (by simp [RegState.init])
  rw [applyRegOps]
  generalize RegState.init = s₀ at hbase ⊢
  induction ops generalizing s₀ with
  | nil => exact hbase
  | cons op ops ih => exact ih _ (agentsKeyed_applyRegOp hbase op)

/-- C10: after any sequence of register/unregister operations, every
agent returned by `get_agents_by_type` is the one the id map currently
binds to its id (stale ids in the type index are filtered out); in
particular, registering the same agent twice and unregistering it once
leaves a stale id in the type index but `get_agents_by_type` then
returns nothing. -/
theorem C10_get_agents_by_type_consistent (ops : List RegOp) (ty : String)
    (a : AgentRec) (h : a ∈ RegState.get_agents_by_type (applyRegOps ops) ty) :
    RegState.get_agent (applyRegOps ops) a.agent_id = some a ∧
    RegState.get_agents_by_type (applyRegOps dupRegOps) "developer" = [] ∧
    alookup (applyRegOps dupRegOps).agent_types "developer" = some ["dev-2"] := by
  refine ⟨?_, rfl, rfl⟩
  rw [RegState.get_agents_by_type] at h
  rcases List.mem_filterMap.mp h with ⟨aid, _hmem, hlook⟩
  have hid : a.agent_id = aid := agentsKeyed_applyRegOps ops (aid, a) (mem_of_alookup hlook)
  rw [RegState.get_agent, hid]
  exact hlook

/-- C10 witness: after registering the idle agent once, the returned
agent is retrievable by its own id, and the double-register scenario
returns the empty list while the stale id remains in the type index. -/
theorem C10_get_agents_by_type_consistent_witness :
    RegState.get_agent (applyRegOps [RegOp.register idleAgent]) idleAgent.agent_id =
      some idleAgent ∧
    RegState.get_agents_by_type (applyRegOps dupRegOps) "developer" = [] ∧
    alookup (applyRegOps dupRegOps).agent_types "developer" = some ["dev-2"] :=
  C10_get_agents_by_type_consistent [RegOp.register idleAgent] "developer" idleAgent
    (by decide)

theorem popMin_eq_none {l : List QItem} : popMin l = none ↔ l = [] := by
  cases l with
  | nil => simp [popMin]
  | cons a l =>
    simp only [popMin]
    cases popMin l with
    | none => simp
    | some p =>
      obtain ⟨m, l'⟩ := p
      by_cases h : QItem.lt m a = true <;> simp [h]

theorem popMin_cons_none {t : List QItem} (a : QItem) (hp : popMin t = none) :
    popMin (a :: t) = some (a, []) := by
  rw [popMin, hp]

theorem popMin_cons_some {t : List QItem} (a : QItem) {m : QItem} {t' : List QItem}
    (hp : popMin t = some (m, t')) :
    popMin (a :: t) = if QItem.lt m a then some (m, a :: t') else some (a, t) := by
  rw [popMin, hp]

theorem popMin_perm {l : List QItem} {m : QItem} {l' : List QItem}
    (h : popMin l = some (m, l')) : l.Perm (m :: l') := by
  induction l generalizing m l' with
  | nil => exact absurd h (by simp [popMin])
  | cons a t ih =>
    rcases hp : popMin t with _ | ⟨m₀, t'⟩
    · rw [popMin_cons_none a hp] at h
      have ht : t = [] := popMin_eq_none.mp hp
      simp only [Option.some.injEq, Prod.mk.injEq] at h
      subst ht
      rw [← h.1, ← h.2]
    · rw [popMin_cons_some a hp] at h
      by_cases hlt : QItem.lt m₀ a = true
      · rw [if_pos hlt] at h
        simp only [Option.some.injEq, Prod.mk.injEq] at h
        obtain ⟨h₁, h₂⟩ := h
        rw [← h₁, ← h₂]
        exact ((ih hp).cons a).trans (List.Perm.swap m₀ a t')
      · rw [if_neg hlt] at h
        simp only [Option.some.injEq, Prod.mk.injEq] at h
        obtain ⟨h₁, h₂⟩ := h
        rw [← h₁, ← h₂]

theorem popMin_min {l : List QItem} {m : QItem} {l' : List QItem}
    (h : popMin l = some (m, l')) : ∀ x ∈ l, QItem.lt x m = false := by
  induction l generalizing m l' with
  | nil => exact absurd h (by simp [popMin])
  | cons a t ih =>
    rcases hp : popMin t with _ | ⟨m₀, t'⟩
    · rw [popMin_cons_none a hp] at h
      have ht : t = [] := popMin_eq_none.mp hp
      simp only [Option.some.injEq, Prod.mk.injEq] at h
      subst ht
      intro x hx
      simp only [List.mem_singleton] at hx
      subst hx
      rw [← h.1]
      exact QItem.lt_irrefl _
    · rw [popMin_cons_some a hp] at h
      by_cases hlt : QItem.lt m₀ a = true
      · rw [if_pos hlt] at h
        simp only [Option.some.injEq, Prod.mk.injEq] at h
        obtain ⟨h₁, _h₂⟩ := h
        subst h₁
        intro x hx
        rcases List.mem_cons.mp hx with h' | h'
        · subst h'
          exact QItem.lt_asymm hlt
        · exact ih hp x h'
      · rw [if_neg hlt] at h
        simp only [Option.some.injEq, Prod.mk.injEq] at h
        obtain ⟨h₁, _h₂⟩ := h
        subst h₁
        intro x hx
        have hlt' : QItem.lt m₀ a = false := by
          revert hlt
          cases QItem.lt m₀ a <;> simp
        rcases List.mem_cons.mp hx with h' | h'
        · subst h'
          exact QItem.lt_irrefl x
        · exact QItem.not_lt_trans hlt' (ih hp x h')

theorem popMin_length {l : List QItem} {m : QItem} {l' : List QItem}
    (h : popMin l = some (m, l')) : l.length = l'.length + 1 := by
  simpa using (popMin_perm h).length_eq

theorem heapDrainFuel_succ_none {l : List QItem} (n : Nat) (hp : popMin l = none) :
    heapDrainFuel (n + 1) l = [] := by
  rw [heapDrainFuel, hp]

theorem heapDrainFuel_succ_some {l : List QItem} (n : Nat) {m : QItem}
    {l' : List QItem} (hp : popMin l = some (m, l')) :
    heapDrainFuel (n + 1) l = m :: heapDrainFuel n l' := by
  rw [heapDrainFuel, hp]

theorem heapDrainFuel_subset {fuel : Nat} {l : List QItem} :
    ∀ x ∈ heapDrainFuel fuel l, x ∈ l := by
  induction fuel generalizing l with
  | zero => simp [heapDrainFuel]
  | succ n ih =>
    intro x hx
    rcases hp : popMin l with _ | ⟨m, l'⟩
    · rw [heapDrainFuel_succ_none n hp] at hx
      exact absurd hx (by simp)
    · rw [heapDrainFuel_succ_some n hp] at hx
      rcases List.mem_cons.mp hx with h | h
      · subst h
        exact (popMin_perm hp).mem_iff.mpr (List.mem_cons_self _ _)
      · exact (popMin_perm hp).mem_iff.mpr (List.mem_cons_of_mem _ (ih x h))

theorem heapDrainFuel_pairwise (fuel : Nat) (l : List QItem) :
    List.Pairwise (fun a b => QItem.lt b a = false) (heapDrainFuel fuel l) := by
  induction fuel generalizing l with
  | zero => simp [heapDrainFuel]
  | succ n ih =>
    rcases hp : popMin l with _ | ⟨m, l'⟩
    · rw [heapDrainFuel_succ_none n hp]
      simp
    · rw [heapDrainFuel_succ_some n hp]
      refine List.Pairwise.cons ?_ (ih l')
      intro y hy
      have hy' : y ∈ l := (popMin_perm hp).mem_iff.mpr
        (List.mem_cons_of_mem _ (heapDrainFuel_subset y hy))
      exact popMin_min hp y hy'

theorem heapDrainFuel_perm {fuel : Nat} {l : List QItem} (h : l.length ≤ fuel) :
    (heapDrainFuel fuel l).Perm l := by
  induction fuel generalizing l with
  | zero =>
    have : l = [] := List.length_eq_zero.mp (Nat.le_zero.mp h)
    subst this
    simp [heapDrainFuel]
  | succ n ih =>
    rcases hp : popMin l with _ | ⟨m, l'⟩
    · rw [heapDrainFuel_succ_none n hp, popMin_eq_none.mp hp]
    · rw [heapDrainFuel_succ_some n hp]
      have hlen : l'.length ≤ n := by
        have := popMin_length hp
        omega
      exact ((ih hlen).cons m).trans (popMin_perm hp).symm

theorem dequeueLoop_succ_none {q : List QItem} (fuel : Nat)
    (pending running : List (String × AgentTask)) (hp : popMin q = none) :
    QState.dequeueLoop (fuel + 1) q pending running = (none, q, pending, running) := by
  rw [QState.dequeueLoop, hp]

theorem dequeueLoop_succ_eq {q : List QItem} (fuel : Nat)
    (pending running : List (String × AgentTask)) {it : QItem} {q' : List QItem}
    (hp : popMin q = some (it, q')) :
    QState.dequeueLoop (fuel + 1) q pending running =
      if (alookup pending it.task.task_id).isSome = true then
        (some it.task, q', aerase pending it.task.task_id,
         ainsert running it.task.task_id it.task)
      else QState.dequeueLoop fuel q' pending running := by
  rw [QState.dequeueLoop, hp]

theorem dequeueLoop_succ_hit {q : List QItem} (fuel : Nat)
    {pending running : List (String × AgentTask)} {it : QItem} {q' : List QItem}
    (hp : popMin q = some (it, q'))
    (hs : (alookup pending it.task.task_id).isSome = true) :
    QState.dequeueLoop (fuel + 1) q pending running =
      (some it.task, q', aerase pending it.task.task_id,
       ainsert running it.task.task_id it.task) := by
  rw [dequeueLoop_succ_eq fuel pending running hp, if_pos hs]

theorem dequeueLoop_succ_miss {q : List QItem} (fuel : Nat)
    {pending running : List (String × AgentTask)} {it : QItem} {q' : List QItem}
    (hp : popMin q = some (it, q'))
    (hs : (alookup pending it.task.task_id).isSome = false) :
    QState.dequeueLoop (fuel + 1) q pending running =
      QState.dequeueLoop fuel q' pending running := by
  rw [dequeueLoop_succ_eq fuel pending running hp, if_neg (by simp [hs])]

/-- The dequeue loop never returns a task whose id is absent from the
pending bucket, and never adds a binding to the pending bucket. -/
theorem dequeueLoop_not_pending {tid : String} :
    ∀ (fuel : Nat) (q : List QItem) (pending running : List (String × AgentTask)),
      alookup pending tid = none →
      alookup (QState.dequeueLoop fuel q pending running).2.2.1 tid = none ∧
      ∀ t, (QState.dequeueLoop fuel q pending running).1 = some t → t.task_id ≠ tid := by
  intro fuel
  induction fuel with
  | zero =>
    intro q pending running h
    exact ⟨h, fun t ht => absurd ht (by simp [QState.dequeueLoop])⟩
  | succ n ih =>
    intro q pending running h
    rcases hp : popMin q with _ | ⟨it, q'⟩
    · rw [dequeueLoop_succ_none n pending running hp]
      exact ⟨h, fun t ht => absurd ht (by simp)⟩
    · rcases hs : (alookup pending it.task.task_id).isSome with _ | _
      · rw [dequeueLoop_succ_miss n hp hs]
        exact ih q' pending running h
      · rw [dequeueLoop_succ_hit n hp hs]
        refine ⟨alookup_aerase_none pending it.task.task_id tid h, ?_⟩
        intro t ht
        have htt : t = it.task := (Option.some.inj ht).symm
        subst htt
        intro hid
        rw [hid, h] at hs
        exact absurd hs (by simp)

/-- `dequeue` (with any agent-type filter) never returns a task whose id
is absent from the pending bucket, and never adds it back. -/
theorem dequeue_not_pending {s : QState} {tid : String}
    (h : alookup s.pending_tasks tid = none) (ty : Option String) :
    alookup (QState.dequeue s ty).2.pending_tasks tid = none ∧
    ∀ t, (QState.dequeue s ty).1 = some t → t.task_id ≠ tid := by
  have hmain :
      alookup (QState.dequeueMain s).2.pending_tasks tid = none ∧
      ∀ t, (QState.dequeueMain s).1 = some t → t.task_id ≠ tid := by
    have := dequeueLoop_not_pending s.queue.length s.queue s.pending_tasks
      s.running_tasks h
    exact this
  rcases ty with _ | ty₀
  · exact hmain
  · rcases hb : (ty₀ ≠ "" && (alookup s.type_queues ty₀).isSome : Bool) with _ | _
    · have heq : QState.dequeue s (some ty₀) = QState.dequeueMain s := by
        rw [QState.dequeue, if_neg (by rw [hb]; simp)]
      rw [heq]
      exact hmain
    · have heq : QState.dequeue s (some ty₀) =
        (let q := (alookup s.type_queues ty₀).getD []
         let step := QState.dequeueLoop q.length q s.pending_tasks s.running_tasks
         (step.1, { s with type_queues := ainsert s.type_queues ty₀ step.2.1,
                           pending_tasks := step.2.2.1,
                           running_tasks := step.2.2.2 })) := by
        rw [QState.dequeue, if_pos hb]
      rw [heq]
      have := dequeueLoop_not_pending ((alookup s.type_queues ty₀).getD []).length
        ((alookup s.type_queues ty₀).getD []) s.pending_tasks s.running_tasks h
      exact this

theorem dequeueSeq_cons (ty : Option String) (tys : List (Option String)) (s : QState) :
    dequeueSeq (ty :: tys) s =
      ((match (QState.dequeue s ty).1 with
        | some t => t :: (dequeueSeq tys (QState.dequeue s ty).2).1
        | none => (dequeueSeq tys (QState.dequeue s ty).2).1),
       (dequeueSeq tys (QState.dequeue s ty).2).2) := rfl

/-- Once a task id is out of the pending bucket, no sequence of
`dequeue` calls ever returns a task with that id. -/
theorem dequeueSeq_not_pending {tid : String} :
    ∀ (tys : List (Option String)) (s : QState),
      alookup s.pending_tasks tid = none →
      ∀ u ∈ (dequeueSeq tys s).1, u.task_id ≠ tid := by
  intro tys
  induction tys with
  | nil =>
    intro s _ u hu
    exact absurd hu (by simp [dequeueSeq])
  | cons ty tys ih =>
    intro s h u hu
    rw [dequeueSeq_cons] at hu
    obtain ⟨hpend, hret⟩ := dequeue_not_pending h ty
    rcases hr : (QState.dequeue s ty).1 with _ | t
    · rw [hr] at hu
      exact ih _ hpend u hu
    · rw [hr] at hu
      rcases List.mem_cons.mp hu with h' | h'
      · subst h'
        exact hret u hr
      · exact ih _ hpend u h'

/-- C9: cancelling a pending task returns true, records status
"cancelled" on the stored task (still retrievable via `get_task`),
removes it from the pending bucket, and no subsequent sequence of
`dequeue` calls ever returns it; cancelling a non-pending task returns
false and leaves the state unchanged. -/
theorem C9_cancel_task (s : QState) (t : AgentTask) (tid : String) (now : Nat)
    (hnd : (s.pending_tasks.map Prod.fst).Nodup) :
    (alookup s.pending_tasks tid = some t →
      (QState.cancel_task s tid now).1 = true ∧
      QState.get_task (QState.cancel_task s tid now).2 tid =
        some { t with status := "cancelled",
                      metadata := ainsert t.metadata "cancelled_at" (.vtime now) } ∧
      alookup (QState.cancel_task s tid now).2.pending_tasks tid = none ∧
      ∀ (tys : List (Option String)),
        ∀ u ∈ (dequeueSeq tys (QState.cancel_task s tid now).2).1,
          u.task_id ≠ tid) ∧
    (alookup s.pending_tasks tid = none →
      QState.cancel_task s tid now = (false, s)) := by
  constructor
  · intro h
    have hcan : QState.cancel_task s tid now =
        (true,
         { s with tasks := ainsert s.tasks tid { t with status := "cancelled", metadata := ainsert t.metadata "cancelled_at" (.vtime now) },
                  pending_tasks := aerase s.pending_tasks tid }) := by
      rw [QState.cancel_task, h]
    rw [hcan]
    have hnone : alookup (aerase s.pending_tasks tid) tid = none :=
      alookup_aerase_self s.pending_tasks tid hnd
    refine ⟨rfl, ?_, hnone, ?_⟩
    · rw [QState.get_task]
      rw [alookup_ainsert]
      simp
    · intro tys u hu
      exact dequeueSeq_not_pending tys _ hnone u hu
  · intro h
    rw [QState.cancel_task, h]

/-- C9 witness: cancelling the pending "t1" in the sample queue succeeds,
"t1" stays retrievable as cancelled, leaves the pending bucket, and no
later dequeue returns it; cancelling on the fresh queue returns false
and changes nothing. -/
theorem C9_cancel_task_witness :
    ((QState.cancel_task queueTD "t1" 7).1 = true ∧
     QState.get_task (QState.cancel_task queueTD "t1" 7).2 "t1" =
       some { taskT with status := "cancelled", metadata := ainsert taskT.metadata "cancelled_at" (.vtime 7) } ∧
     alookup (QState.cancel_task queueTD "t1" 7).2.pending_tasks "t1" = none ∧
     ∀ (tys : List (Option String)),
       ∀ u ∈ (dequeueSeq tys (QState.cancel_task queueTD "t1" 7).2).1,
         u.task_id ≠ "t1") ∧
    QState.cancel_task QState.init "t1" 7 = (false, QState.init) :=
  ⟨(C9_cancel_task queueTD taskT "t1" 7 (by decide)).1 rfl,
   (C9_cancel_task QState.init taskT "t1" 7 (by decide)).2 rfl⟩

theorem enqueue_fields (s : QState) (t : AgentTask) :
    (QState.enqueue s t).2.queue = s.queue ++ [toItem t] ∧
    (QState.enqueue s t).2.pending_tasks = ainsert s.pending_tasks t.task_id t := by
  rcases ha : t.assigned_agent with _ | aid
  · constructor <;> simp [QState.enqueue, ha, toItem]
  · by_cases he : aid = ""
    · constructor <;> simp [QState.enqueue, ha, he, toItem]
    · constructor <;> simp [QState.enqueue, ha, he, toItem]

theorem enqueueAll_spec :
    ∀ (ts : List AgentTask) (s : QState),
      ((s.queue.map (fun it => it.task.task_id)) ++ ts.map AgentTask.task_id).Nodup →
      (∀ it ∈ s.queue, (alookup s.pending_tasks it.task.task_id).isSome = true) →
      (enqueueAll s ts).queue = s.queue ++ ts.map toItem ∧
      ((enqueueAll s ts).queue.map (fun it => it.task.task_id)).Nodup ∧
      ∀ it ∈ (enqueueAll s ts).queue,
        (alookup (enqueueAll s ts).pending_tasks it.task.task_id).isSome = true := by
  intro ts
  induction ts with
  | nil =>
    intro s hnd hpend
    refine ⟨by simp [enqueueAll], ?_, hpend⟩
    simpa using hnd
  | cons t ts ih =>
    intro s hnd hpend
    have hstep : enqueueAll s (t :: ts) = enqueueAll (QState.enqueue s t).2 ts := rfl
    obtain ⟨hq, hp⟩ := enqueue_fields s t
    have hnd' : (((QState.enqueue s t).2.queue.map (fun it => it.task.task_id)) ++
        ts.map AgentTask.task_id).Nodup := by
      rw [hq]
      simpa [toItem, List.append_assoc] using hnd
    have hpend' : ∀ it ∈ (QState.enqueue s t).2.queue,
        (alookup (QState.enqueue s t).2.pending_tasks it.task.task_id).isSome = true := by
      intro it hit
      rw [hq] at hit
      rw [hp, alookup_ainsert]
      rcases List.mem_append.mp hit with h | h
      · by_cases hids : t.task_id = it.task.task_id
        · rw [if_pos hids]
          rfl
        · rw [if_neg hids]
          exact hpend it h
      · simp only [List.mem_singleton] at h
        subst h
        simp [toItem]
    obtain ⟨hq', hnd'', hpend''⟩ := ih (QState.enqueue s t).2 hnd' hpend'
    rw [hstep]
    refine ⟨?_, hnd'', hpend''⟩
    rw [hq', hq]
    simp [List.append_assoc]

theorem heapDrainFuel_nil (k : Nat) : heapDrainFuel k [] = [] := by
  cases k <;> simp [heapDrainFuel, popMin]

/-- With every queued item still pending and queue ids duplicate-free, a
sequence of `dequeue` calls returns exactly the successive heap minima. -/
theorem drain_spec :
    ∀ (n : Nat) (s : QState),
      (s.queue.map (fun it => it.task.task_id)).Nodup →
      (∀ it ∈ s.queue, (alookup s.pending_tasks it.task.task_id).isSome = true) →
      (dequeueSeq (List.replicate n none) s).1 =
        (heapDrainFuel n s.queue).map (fun it => it.task) := by
  intro n
  induction n with
  | zero =>
    intro s _ _
    rfl
  | succ k ih =>
    intro s hnd hpend
    rw [List.replicate_succ, dequeueSeq_cons]
    rcases hp : popMin s.queue with _ | ⟨it, q'⟩
    · have hq : s.queue = [] := popMin_eq_none.mp hp
      have hdeq : QState.dequeue s none = (none, s) := by
        obtain ⟨q, tq, tks, p, r, c, f, m⟩ := s
        simp only at hq
        subst hq
        rfl
      rw [hdeq]
      simp only
      rw [ih s hnd hpend, heapDrainFuel_succ_none k hp, hq, heapDrainFuel_nil]
    · have hmem : it ∈ s.queue :=
        (popMin_perm hp).mem_iff.mpr (List.mem_cons_self _ _)
      have hit_pend : (alookup s.pending_tasks it.task.task_id).isSome = true :=
        hpend it hmem
      have hlen : s.queue.length = q'.length + 1 := popMin_length hp
      have hids : ((it :: q').map (fun x => x.task.task_id)).Nodup :=
        (((popMin_perm hp).map (fun x => x.task.task_id)).nodup_iff).mp hnd
      have hdeq : QState.dequeue s none =
          (some it.task,
           { s with queue := q',
                    pending_tasks := aerase s.pending_tasks it.task.task_id,
                    running_tasks := ainsert s.running_tasks it.task.task_id it.task }) := by
        show QState.dequeueMain s = _
        rw [QState.dequeueMain, hlen, dequeueLoop_succ_hit q'.length hp hit_pend]
      rw [hdeq]
      simp only
      have hnd' : (q'.map (fun x => x.task.task_id)).Nodup := by
        simp only [List.map_cons, List.nodup_cons] at hids
        exact hids.2
      have hpend' : ∀ x ∈ q',
          (alookup (aerase s.pending_tasks it.task.task_id) x.task.task_id).isSome
            = true := by
        intro x hx
        have hxall : x ∈ s.queue :=
          (popMin_perm hp).mem_iff.mpr (List.mem_cons_of_mem _ hx)
        have hne : ¬ it.task.task_id = x.task.task_id := by
          simp only [List.map_cons, List.nodup_cons, List.mem_map] at hids
          exact fun he => hids.1 ⟨x, hx, he.symm⟩
        rw [alookup_aerase_ne _ _ _ hne]
        exact hpend x hxall
      have hih := ih
        { s with queue := q', pending_tasks := aerase s.pending_tasks it.task.task_id, running_tasks := ainsert s.running_tasks it.task.task_id it.task }
        hnd' hpend'
      rw [hih, heapDrainFuel_succ_some k hp]
      rfl

/-- C3: after enqueuing any tasks (with distinct ids) and repeatedly
dequeuing, the dequeued tasks come out in non-decreasing
priority-number order; among equal priorities the earlier creation
timestamp comes out first; and enough dequeues return exactly the
enqueued tasks (a permutation). -/
theorem C3_priority_fifo (ts : List AgentTask) (n : Nat)
    (hnd : (ts.map AgentTask.task_id).Nodup) :
    List.Pairwise (fun a b => a.priority.value ≤ b.priority.value)
      (dequeueSeq (List.replicate n none) (enqueueAll QState.init ts)).1 ∧
    List.Pairwise
      (fun a b => a.priority.value = b.priority.value → a.created_at ≤ b.created_at)
      (dequeueSeq (List.replicate n none) (enqueueAll QState.init ts)).1 ∧
    (ts.length ≤ n →
      ((dequeueSeq (List.replicate n none) (enqueueAll QState.init ts)).1).Perm ts) := by
  obtain ⟨hq, hqnd, hqpend⟩ := enqueueAll_spec ts QState.init
    (by simpa [QState.init] using hnd) (by simp [QState.init])
  have hdrain := drain_spec n (enqueueAll QState.init ts) hqnd hqpend
  have hq' : (enqueueAll QState.init ts).queue = ts.map toItem := by
    rw [hq]
    rfl
  rw [hdrain, hq']
  have hwf : ∀ x ∈ heapDrainFuel n (ts.map toItem),
      x.priority = x.task.priority.value ∧ x.timestamp = x.task.created_at := by
    intro x hx
    rcases List.mem_map.mp (heapDrainFuel_subset x hx) with ⟨t, _, rfl⟩
    exact ⟨rfl, rfl⟩
  have hpw := heapDrainFuel_pairwise n (ts.map toItem)
  refine ⟨?_, ?_, ?_⟩
  · rw [List.pairwise_map]
    refine List.Pairwise.imp_of_mem ?_ hpw
    intro a b ha hb hab
    obtain ⟨wa₁, _⟩ := hwf a ha
    obtain ⟨wb₁, _⟩ := hwf b hb
    have hlex := (QItem.not_lt_iff b a).mp hab
    omega
  · rw [List.pairwise_map]
    refine List.Pairwise.imp_of_mem ?_ hpw
    intro a b ha hb hab hpr
    obtain ⟨wa₁, wa₂⟩ := hwf a ha
    obtain ⟨wb₁, wb₂⟩ := hwf b hb
    have hlex := (QItem.not_lt_iff b a).mp hab
    omega
  · intro hlen
    have hlen' : (ts.map toItem).length ≤ n := by simpa using hlen
    have hperm := (heapDrainFuel_perm hlen').map (fun it => it.task)
    refine hperm.trans ?_
    rw [List.map_map]
    have : ((fun it => it.task) ∘ toItem) = (fun t => t) := by
      funext t
      rfl
    rw [this, List.map_id']

/-- C3 witness: enqueuing the normal-priority "d1" (created first) and
the critical "t1" and dequeuing twice yields them in priority order, a
permutation of the input. -/
theorem C3_priority_fifo_witness :
    List.Pairwise (fun a b => a.priority.value ≤ b.priority.value)
      (dequeueSeq (List.replicate 2 none) (enqueueAll QState.init [taskD, taskT])).1 ∧
    List.Pairwise
      (fun a b => a.priority.value = b.priority.value → a.created_at ≤ b.created_at)
      (dequeueSeq (List.replicate 2 none) (enqueueAll QState.init [taskD, taskT])).1 ∧
    ((dequeueSeq (List.replicate 2 none)
        (enqueueAll QState.init [taskD, taskT])).1).Perm [taskD, taskT] := by
  obtain ⟨h₁, h₂, h₃⟩ := C3_priority_fifo [taskD, taskT] 2 (by decide)
  exact ⟨h₁, h₂, h₃ (by decide)⟩

end DevPilot

